import Mathlib

/-!
Verification of the photometric-uncertainty model in
`code/point_source/gaia_magerror.py` (classes `Edr3LogMagUncertainty` and
`MagError`).

Numeric model: the Python code computes with numpy double-precision floats.
We embed the values as extended rationals `FV` (finite rational, `+inf`,
`-inf`, `NaN`) and give each numpy operation its IEEE-754 semantics on that
carrier (numpy emits a `RuntimeWarning` for `log10(0)` etc. but raises no
exception, so the embedding has no error channel inside the arithmetic).
The transcendental scalar functions `log10`, `sqrt`, `10 ** _` have no
computable exact counterpart on ℚ, so they are abstracted as an environment
`NumEnv` of scalar functions; every theorem that needs an analytic property
of one of them (positivity, strict monotonicity, `log10 1 = 0`, ...) takes
that property as an explicit hypothesis satisfied by the real functions.

Randomness (`np.random.poisson`, `np.random.normal`) is externalized: the
embedded functions take the drawn sequences as arguments, exactly as the
claims quantify over "drawn observation counts" and deviates.
-/

/-- Extended value carrier mirroring an IEEE-754 double holding a real
number: a finite value, a signed infinity, or NaN. -/
inductive FV where
  | fin (q : ℚ)
  | pinf
  | ninf
  | nan
deriving DecidableEq, Repr

/-- `True` exactly on finite values (`np.isfinite`). -/
def FV.isFinite : FV → Bool
  | .fin _ => true
  | _ => false

/-- The abstracted transcendental scalar functions used by the code:
`np.log10`, `np.sqrt` and `10 ** _` restricted to the arguments where they
return a finite value. -/
structure NumEnv where
  log10 : ℚ → ℚ
  sqrtq : ℚ → ℚ
  pow10 : ℚ → ℚ

/-- IEEE negation. -/
def fneg : FV → FV
  | .fin a => .fin (-a)
  | .pinf => .ninf
  | .ninf => .pinf
  | .nan => .nan

/-- IEEE addition (`inf + (-inf) = NaN`, NaN propagates). -/
def fadd : FV → FV → FV
  | .nan, _ => .nan
  | _, .nan => .nan
  | .fin a, .fin b => .fin (a + b)
  | .fin _, .pinf => .pinf
  | .fin _, .ninf => .ninf
  | .pinf, .fin _ => .pinf
  | .ninf, .fin _ => .ninf
  | .pinf, .pinf => .pinf
  | .ninf, .ninf => .ninf
  | .pinf, .ninf => .nan
  | .ninf, .pinf => .nan

/-- IEEE subtraction, as `a + (-b)`. -/
def fsub (a b : FV) : FV := fadd a (fneg b)

/-- IEEE multiplication (`0 * inf = NaN`, signs combine, NaN propagates). -/
def fmul : FV → FV → FV
  | .nan, _ => .nan
  | _, .nan => .nan
  | .fin a, .fin b => .fin (a * b)
  | .fin a, .pinf => if 0 < a then .pinf else if a < 0 then .ninf else .nan
  | .fin a, .ninf => if 0 < a then .ninf else if a < 0 then .pinf else .nan
  | .pinf, .fin b => if 0 < b then .pinf else if b < 0 then .ninf else .nan
  | .ninf, .fin b => if 0 < b then .ninf else if b < 0 then .pinf else .nan
  | .pinf, .pinf => .pinf
  | .pinf, .ninf => .ninf
  | .ninf, .pinf => .ninf
  | .ninf, .ninf => .pinf

/-- IEEE division for the cases the code reaches: finite/finite with the
numpy conventions `x/0 = ±inf` for `x ≠ 0` and `0/0 = NaN`; `inf/finite`
keeps the sign of the denominator; `finite/inf = 0`; `inf/inf = NaN`. -/
def fdiv : FV → FV → FV
  | .nan, _ => .nan
  | _, .nan => .nan
  | .fin a, .fin b =>
      if b = 0 then (if a = 0 then .nan else if 0 < a then .pinf else .ninf)
      else .fin (a / b)
  | .fin _, .pinf => .fin 0
  | .fin _, .ninf => .fin 0
  | .pinf, .fin b => if b < 0 then .ninf else .pinf
  | .ninf, .fin b => if b < 0 then .pinf else .ninf
  | .pinf, .pinf => .nan
  | .pinf, .ninf => .nan
  | .ninf, .pinf => .nan
  | .ninf, .ninf => .nan

/-- `np.log10`: `log10 0 = -inf` (with only a `RuntimeWarning`),
`log10 x = NaN` for `x < 0`, `log10 (+inf) = +inf`. -/
def flog10 (env : NumEnv) : FV → FV
  | .fin a => if 0 < a then .fin (env.log10 a) else if a = 0 then .ninf else .nan
  | .pinf => .pinf
  | .ninf => .nan
  | .nan => .nan

/-- `10 ** x`: finite for finite exponents (the code only reaches exponents
far from double overflow), `10 ** (+inf) = +inf`, `10 ** (-inf) = 0`. -/
def fpow10 (env : NumEnv) : FV → FV
  | .fin a => .fin (env.pow10 a)
  | .pinf => .pinf
  | .ninf => .fin 0
  | .nan => .nan

/-- `x ** 2`: squares a finite value, sends both infinities to `+inf`. -/
def fpow2 : FV → FV
  | .fin a => .fin (a * a)
  | .pinf => .pinf
  | .ninf => .pinf
  | .nan => .nan

/-- `np.sqrt`: NaN on negative arguments, `sqrt (+inf) = +inf`. -/
def fsqrt (env : NumEnv) : FV → FV
  | .fin a => if 0 ≤ a then .fin (env.sqrtq a) else .nan
  | .pinf => .pinf
  | .ninf => .nan
  | .nan => .nan

/-! ## The `Edr3LogMagUncertainty` model -/

/-- The three Gaia photometric bands. -/
inductive Band where
  | g
  | bp
  | rp
deriving DecidableEq, Repr

/-- The fixed reference observation counts
`self.__nobs = dict g 200, bp 20, rp 20` (line 26). -/
def nobsRef : Band → ℕ
  | .g => 200
  | .bp => 20
  | .rp => 20

/-- The lower-case key of a band in the `__splines` dictionary. -/
def bandKey : Band → String
  | .g => "g"
  | .bp => "bp"
  | .rp => "rp"

/-- Python `str.lower()` (`band.lower()`, line 53), written over the
underlying character list (equivalent to `String.toLower` for the ASCII
band names involved, but evaluable by kernel reduction). -/
def pyLower (s : String) : String := ⟨s.data.map Char.toLower⟩

/-- `band = band.lower(); if band not in list g bp rp` (lines 53-55):
case-insensitive resolution of a band name string. -/
def bandOfString (s : String) : Option Band :=
  let t := pyLower s
  if t = "g" then some .g
  else if t = "bp" then some .bp
  else if t = "rp" then some .rp
  else none

/-- A constructed per-band B-spline, as evaluated by
`scipy.interpolate.BSpline` with `extrapolate=False`: NaN outside the base
interval `[lo, hi]` (in scipy terms `[t[k], t[n]]`), and inside the base
interval the piecewise-cubic polynomial, abstracted here as `f` because the
knot/coefficient table (`LogErrVsMagSpline.csv`) is data external to the
evaluated source. -/
structure BandCurve where
  lo : ℚ
  hi : ℚ
  f : ℚ → ℚ

/-- Evaluation with `extrapolate=False`: outside the base interval the
result is NaN, inside it is the (finite) spline value. -/
def BandCurve.eval (c : BandCurve) (m : ℚ) : FV :=
  if m < c.lo ∨ c.hi < m then FV.nan else FV.fin (c.f m)

/-- Modelled from the spec: the reference knot/coefficient table
`LogErrVsMagSpline.csv` is not part of the evaluated source, so the base
interval `[t[3], t[n]]` of each band spline cannot be computed from source;
per the spec ("Band Curve: ... mapping magnitude ∈ [4, 21]", "The default
and maximum valid range is (4, 21)") the base interval is `[4, 21]`. -/
def specBandCurve (f : ℚ → ℚ) : BandCurve := ⟨4, 21, f⟩

/-- Validation of the `mag_range` argument of `estimate` (lines 56-64):
`None` defaults to `(4, 21)`; a lower bound below 4, an upper bound above
21, or an inverted range raises `ValueError`. -/
def checkMagRange (r : Option (ℚ × ℚ)) : Except String (ℚ × ℚ) :=
  match r with
  | none => .ok (4, 21)
  | some (lo, hi) =>
      if lo < 4 then .error "Uncertainties can be estimated on in the range [4, 21]"
      else if 21 < hi then .error "Uncertainties can be estimated on in the range [4, 21]"
      else if hi < lo then .error "Malformed magnitude range"
      else .ok (lo, hi)

/-- `np.linspace(lo, hi, n)` (line 65) over exact rationals:
`lo + i * (hi - lo) / (n - 1)` for `i = 0, ..., n-1`. -/
def linspace (lo hi : ℚ) (n : ℕ) : List ℚ :=
  (List.range n).map (fun i => lo + (i : ℚ) * (hi - lo) / ((n : ℚ) - 1))

/-- `Edr3LogMagUncertainty.__compute_nobs` (lines 74-85) with the scalar
`nobs` already wrapped into a one-element list (the `isinstance(nobs, int)`
branch).  Iterates over the requested counts in order; a negative count
raises `ValueError`; count 0 emits the raw curve under the label
`logU_<reference count>`; a positive count emits the rescaled curve
`spline(xx) - log10(sqrt(num) / sqrt(ref))` under `logU_<num>`.  The Python
dict is modelled as an association list in insertion order (no claim
exercises duplicate counts, where the dict would overwrite). -/
def computeNobs (env : NumEnv) (curve : BandCurve) (ref : ℕ) (xx : List ℚ) :
    List ℤ → Except String (List (String × List FV))
  | [] => .ok []
  | num :: rest =>
      if num < 0 then .error "Number of observations should be strictly positive"
      else
        let col :=
          if num = 0 then
            ("logU_" ++ toString ref, xx.map curve.eval)
          else
            ("logU_" ++ toString num,
             xx.map (fun m =>
               fsub (curve.eval m)
                 (flog10 env (fdiv (fsqrt env (.fin (num : ℚ)))
                                   (fsqrt env (.fin (ref : ℚ)))))))
        match computeNobs env curve ref xx rest with
        | .error e => .error e
        | .ok cols => .ok (col :: cols)

/-- `Edr3LogMagUncertainty.estimate` (lines 28-68): resolves the band name
case-insensitively, validates `mag_range`, builds the magnitude grid, and
computes one labelled column per requested observation count, prepending
the magnitude column `mag_<band>`. -/
def estimate (env : NumEnv) (splines : Band → BandCurve) (band : String)
    (nobs : List ℤ) (mag_range : Option (ℚ × ℚ)) (mag_samples : ℕ) :
    Except String (List (String × List FV)) :=
  match bandOfString band with
  | none => .error ("Unknown band: " ++ pyLower band)
  | some b =>
      match checkMagRange mag_range with
      | .error e => .error e
      | .ok (lo, hi) =>
          let xx := linspace lo hi mag_samples
          match computeNobs env (splines b) (nobsRef b) xx nobs with
          | .error e => .error e
          | .ok cols => .ok (("mag_" ++ bandKey b, xx.map FV.fin) :: cols)

/-! ## Spline construction (`__init_spline`, C4) -/

/-- `df[[col_knots, col_coeff]].dropna()` (line 71): keep the rows where
both the knot and the coefficient are present. -/
def dropna : List (Option ℚ × Option ℚ) → List (ℚ × ℚ)
  | [] => []
  | (some k, some c) :: rest => (k, c) :: dropna rest
  | _ :: rest => dropna rest

/-- The raw data of a constructed `scipy.interpolate.BSpline`. -/
structure BSplineRaw where
  t : List ℚ
  c : List ℚ
  k : ℕ

/-- `(np.diff(t) < 0).any()`: some adjacent pair decreases. -/
def hasDecreasingPair : List ℚ → Bool
  | a :: b :: rest => decide (b < a) || hasDecreasingPair (b :: rest)
  | _ => false

/-- The argument validation of `scipy.interpolate.BSpline.__init__`
(scipy's documented construction checks, external to this repository):
with `n = len(t) - k - 1`, it raises `ValueError` unless `n >= k + 1`
(i.e. at least `2k + 2` knots), the knots are non-decreasing, the base
interval `t[k:n+1]` contains at least two distinct knots, and
`len(c) >= n`.  (The `np.isfinite(t)` check is vacuous over ℚ.) -/
def bsplineMk (t c : List ℚ) (k : ℕ) : Except String BSplineRaw :=
  let n : ℤ := (t.length : ℤ) - (k : ℤ) - 1
  if n < (k : ℤ) + 1 then
    .error "Need at least 2k+2 knots for degree k"
  else if hasDecreasingPair t then
    .error "Knots must be in a non-decreasing order."
  else if ((t.drop k).take (n + 1 - k).toNat).dedup.length < 2 then
    .error "Need at least two internal knots."
  else if (c.length : ℤ) < n then
    .error "Knots, coefficients and degree are inconsistent."
  else
    .ok ⟨t, c, k⟩

/-- `Edr3LogMagUncertainty.__init_spline` (lines 70-72): drop the
incomplete rows and hand the remaining knot and coefficient columns to the
`BSpline` constructor with degree 3. -/
def initSpline (rows : List (Option ℚ × Option ℚ)) : Except String BSplineRaw :=
  let p := dropna rows
  bsplineMk (p.map Prod.fst) (p.map Prod.snd) 3

/-- `Edr3LogMagUncertainty.__init__` (lines 17-26): build the three band
splines in order (g, bp, rp); the first constructor failure propagates. -/
def edr3Init (gRows bpRows rpRows : List (Option ℚ × Option ℚ)) :
    Except String (BSplineRaw × BSplineRaw × BSplineRaw) := do
  let g ← initSpline gRows
  let bp ← initSpline bpRows
  let rp ← initSpline rpRows
  return (g, bp, rp)

/-- `True` exactly on the `error` constructor. -/
def isErr {ε α : Type} : Except ε α → Bool
  | .error _ => true
  | .ok _ => false

/-! ## The `MagError` model -/

/-- A row of the synthetic sample: the noise-free true magnitude in each of
the three band columns (`Gmag`, `G_BPmag`, `G_RPmag`). -/
structure SynStar where
  g : ℚ
  bp : ℚ
  rp : ℚ
deriving DecidableEq, Repr

/-- `0.0027553202 ** 2` appears as the G-band floor term (line 172). -/
def floorG : ℚ := 27553202 / 10 ^ 10

/-- BP-band floor `0.0027901700` (line 177). -/
def floorBP : ℚ := 27901700 / 10 ^ 10

/-- RP-band floor `0.0037793818` (line 182). -/
def floorRP : ℚ := 37793818 / 10 ^ 10

/-- The calibration constant `0.67` (lines 171, 176, 181). -/
def c067 : ℚ := 67 / 100

/-- The per-star, per-band body of `MagError.estimate_med_photoerr`
(lines 169-183):
`np.sqrt((10 ** (spline(mag) - np.log10(np.sqrt(n_obs) / np.sqrt(ref))) / 0.67) ** 2 + floor ** 2)`
with each numpy operation given its IEEE semantics on `FV`. -/
def medErrStar (env : NumEnv) (curve : BandCurve) (ref : ℚ) (fl : ℚ)
    (m : ℚ) (n : ℕ) : FV :=
  fsqrt env
    (fadd
      (fpow2
        (fdiv
          (fpow10 env
            (fsub (curve.eval m)
              (flog10 env
                (fdiv (fsqrt env (.fin (n : ℚ))) (fsqrt env (.fin ref))))))
          (.fin c067)))
      (.fin (fl ^ 2)))

/-- `MagError.estimate_med_photoerr` (lines 139-190) with the Poisson draws
externalized: given the synthetic sample and the three drawn
observation-count sequences (the result of `random_n_obs`), computes the
three per-star uncertainty sequences with the hard-coded reference counts
200 / 20 / 20 and the three floor constants.  The `try/except
ZeroDivisionError` of the source has no counterpart: none of the numpy
array operations involved can raise `ZeroDivisionError` (division and
`log10` of zero only emit warnings), so the computation always returns. -/
def estimate_med_photoerr (env : NumEnv) (cg cbp crp : BandCurve)
    (sample : List SynStar) (gN bpN rpN : List ℕ) :
    List FV × List FV × List FV :=
  (List.zipWith (fun s n => medErrStar env cg 200 floorG s.g n) sample gN,
   List.zipWith (fun s n => medErrStar env cbp 20 floorBP s.bp n) sample bpN,
   List.zipWith (fun s n => medErrStar env crp 20 floorRP s.rp n) sample rpN)

/-- Three-list `zipWith`, truncating at the shortest list (numpy broadcast
of equal-length arrays). -/
def zipWith3 {α β γ δ : Type} (f : α → β → γ → δ) :
    List α → List β → List γ → List δ
  | a :: as, b :: bs, c :: cs => f a b c :: zipWith3 f as bs cs
  | _, _, _ => []

/-- `MagError.syn_sample_photoerr` (lines 192-203) with the random draws
externalized: `normal_sample` is the single sequence of standard-normal
deviates of length `n_stars` (`np.random.normal(size=n_stars)`, line 195),
drawn once and reused by all three bands; each band returns
`med_err * normal_sample + true_magnitude` (lines 200-202). -/
def syn_sample_photoerr (env : NumEnv) (cg cbp crp : BandCurve)
    (sample : List SynStar) (gN bpN rpN : List ℕ) (normal_sample : List ℚ) :
    List FV × List FV × List FV :=
  let e := estimate_med_photoerr env cg cbp crp sample gN bpN rpN
  (zipWith3 (fun err d s => fadd (fmul err (.fin d)) (.fin s.g)) e.1 normal_sample sample,
   zipWith3 (fun err d s => fadd (fmul err (.fin d)) (.fin s.bp)) e.2.1 normal_sample sample,
   zipWith3 (fun err d s => fadd (fmul err (.fin d)) (.fin s.rp)) e.2.2 normal_sample sample)

/-- `np.median` on a one-dimensional array: sort ascending; odd length
takes the middle element, even positive length averages the two middle
elements.  (`np.median([])` is NaN with a warning and `int(NaN)` raises;
no claim exercises the empty column, so the empty case here returns the
`getD` default.) -/
def npMedian (l : List ℚ) : ℚ :=
  let s := l.mergeSort (fun a b => decide (a ≤ b))
  if l.length % 2 = 1 then s.getD (l.length / 2) 0
  else (s.getD (l.length / 2 - 1) 0 + s.getD (l.length / 2) 0) / 2

/-- Python `int(x)` on a (rational-valued) float: truncation toward zero. -/
def pyInt (q : ℚ) : ℤ := if 0 ≤ q then ⌊q⌋ else ⌈q⌉

/-- The default observation-count column names (line 125). -/
def defaultNobsCols : List String :=
  ["phot_g_n_obs", "phot_bp_n_obs", "phot_rp_n_obs"]

/-- `MagError.extract_med_nobs` (lines 121-130): for each of the three
bands, the median of the named observation-count column of the observed
sample, cast to `int`.  The sample is modelled as a map from column name to
column values. -/
def extract_med_nobs (sample_obs : String → List ℚ)
    (nobsArg : Option (List String)) : List ℤ :=
  let nobs := nobsArg.getD defaultNobsCols
  (List.range 3).map (fun i => pyInt (npMedian (sample_obs (nobs.getD i ""))))

/-- Python truthiness of the `med_nobs` argument (`if med_nobs:` line 110):
`None` and the empty list are falsy, a non-empty list is truthy. -/
def truthy : Option (List ℤ) → Bool
  | none => false
  | some l => !l.isEmpty

/-- The `med_nobs` selection logic of `MagError.__init__` (lines 110-119)
(the superclass spline construction, line 103, is modelled separately by
`edr3Init`): a truthy `med_nobs` is stored directly; otherwise a supplied
`sample_obs` is reduced by `extract_med_nobs` (with explicit column names
when `nobs` is given); otherwise `ValueError`. -/
def magErrorInit (med_nobs : Option (List ℤ)) (sample_obs : Option (String → List ℚ))
    (nobsCols : Option (List String)) : Except String (List ℤ) :=
  if truthy med_nobs then .ok (med_nobs.getD [])
  else
    match sample_obs with
    | some s =>
        match nobsCols with
        | some nms => .ok (extract_med_nobs s (some nms))
        | none => .ok (extract_med_nobs s none)
    | none => .error "please enter med_nobs OR sample_obs"

/-! ## Spec-side formulas and witness fixtures -/

/-- The scalar rescaling formula of `__compute_nobs` line 84 and
`estimate_med_photoerr` lines 170-171, at a finite curve value `c`:
`c - log10(sqrt(n) / sqrt(ref))`. -/
def logU_rescaled (env : NumEnv) (c ref n : ℚ) : ℚ :=
  c - env.log10 (env.sqrtq n / env.sqrtq ref)

/-- Refinement target written from the spec words for the final per-star
uncertainty: `sqrt((10^(curve(m) - log10(sqrt n / sqrt ref)) / 0.67)^2 +
floor^2)`. -/
def specUncertainty (env : NumEnv) (curveVal ref fl n : ℚ) : ℚ :=
  env.sqrtq ((env.pow10 (curveVal - env.log10 (env.sqrtq n / env.sqrtq ref)) / c067) ^ 2
    + fl ^ 2)

/-- A concrete environment used by the witness theorems: any computable
functions satisfying the analytic hypotheses a given theorem needs
(`fun x => x - 1` satisfies `log10 1 = 0` and strict monotonicity; `id`
satisfies the `sqrt` hypotheses). -/
def envW : NumEnv := ⟨fun x => x - 1, id, id⟩

/-- A concrete band curve on the spec domain, used by witness theorems. -/
def curveW : BandCurve := ⟨4, 21, fun _ => -2⟩


/-! ## Helper lemmas -/

/-- Subtracting a finite zero is the identity on every extended value. -/
theorem fsub_fin_zero (v : FV) : fsub v (.fin 0) = v := by
  cases v <;> simp [fsub, fneg, fadd]

/-- The rescaling constant at the reference count itself:
`log10(sqrt(ref) / sqrt(ref)) = log10 1 = 0`. -/
theorem rescale_at_ref (env : NumEnv) (hlog1 : env.log10 1 = 0)
    (hsq : ∀ x : ℚ, 0 < x → 0 < env.sqrtq x) (ref : ℚ) (href : 0 < ref) :
    flog10 env (fdiv (fsqrt env (.fin ref)) (fsqrt env (.fin ref))) = .fin 0 := by
  have hs : 0 < env.sqrtq ref := hsq ref href
  have h1 : fsqrt env (.fin ref) = .fin (env.sqrtq ref) := by
    simp [fsqrt, le_of_lt href]
  rw [h1]
  have h2 : fdiv (.fin (env.sqrtq ref)) (.fin (env.sqrtq ref)) = .fin 1 := by
    simp [fdiv, ne_of_gt hs, div_self (ne_of_gt hs)]
  rw [h2]
  simp [flog10, hlog1]

/-- `__compute_nobs` on the singleton sentinel `[0]`. -/
theorem computeNobs_single_zero (env : NumEnv) (curve : BandCurve) (ref : ℕ)
    (xx : List ℚ) :
    computeNobs env curve ref xx [0] =
      .ok [("logU_" ++ toString ref, xx.map curve.eval)] := by
  simp [computeNobs]

/-- `__compute_nobs` on a singleton strictly positive count. -/
theorem computeNobs_single_pos (env : NumEnv) (curve : BandCurve) (ref : ℕ)
    (xx : List ℚ) (num : ℤ) (h : 0 < num) :
    computeNobs env curve ref xx [num] =
      .ok [("logU_" ++ toString num,
        xx.map (fun m =>
          fsub (curve.eval m)
            (flog10 env (fdiv (fsqrt env (.fin (num : ℚ)))
                              (fsqrt env (.fin (ref : ℚ)))))))] := by
  have h1 : ¬ num < 0 := by omega
  have h2 : ¬ num = 0 := by omega
  simp [computeNobs, h1, h2]

/-! ## C9 -/

/-- C9: for every magnitude outside the band curve's valid domain `[4, 21]`,
evaluating the curve yields NaN rather than an extrapolated number, because
the cubic B-spline is constructed with `extrapolate=False`. -/
theorem c9_out_of_domain_is_nan (f : ℚ → ℚ) (m : ℚ) (h : m < 4 ∨ 21 < m) :
    (specBandCurve f).eval m = FV.nan := by
  unfold specBandCurve BandCurve.eval
  exact if_pos h

/-- Witness for C9 at magnitude 3. -/
theorem c9_witness :
    ((3 : ℚ) < 4 ∨ 21 < (3 : ℚ)) ∧ (specBandCurve id).eval 3 = FV.nan :=
  ⟨Or.inl (by norm_num), c9_out_of_domain_is_nan id 3 (Or.inl (by norm_num))⟩

/-! ## C4 -/

/-- `__init_spline` fails when fewer than 4 valid rows remain: `BSpline`
then sees fewer than `2k + 2 = 8` knots and raises. -/
theorem initSpline_few_points_err (rows : List (Option ℚ × Option ℚ))
    (h : (dropna rows).length < 4) :
    initSpline rows = .error "Need at least 2k+2 knots for degree k" := by
  unfold initSpline bsplineMk
  simp only [List.length_map]
  rw [if_pos (by push_cast; omega)]

/-- C4: `Edr3LogMagUncertainty` construction fails when, after dropping
rows with a missing knot or coefficient, fewer than 4 valid (knot,
coefficient) points remain for any of the three bands.  (scipy in fact
requires at least `2k + 2 = 8` knots for degree 3, so fewer than 4 fails a
fortiori.) -/
theorem c4_too_few_points_fails (gRows bpRows rpRows : List (Option ℚ × Option ℚ))
    (h : (dropna gRows).length < 4 ∨ (dropna bpRows).length < 4 ∨
         (dropna rpRows).length < 4) :
    isErr (edr3Init gRows bpRows rpRows) = true := by
  rcases h with h | h | h
  · simp [edr3Init, initSpline_few_points_err _ h, isErr, Bind.bind, Except.bind, Functor.map, Except.map]
  · cases hg : initSpline gRows with
    | error e => simp [edr3Init, hg, isErr, Bind.bind, Except.bind, Functor.map, Except.map]
    | ok v => simp [edr3Init, hg, initSpline_few_points_err _ h, isErr, Bind.bind, Except.bind, Functor.map, Except.map]
  · cases hg : initSpline gRows with
    | error e => simp [edr3Init, hg, isErr, Bind.bind, Except.bind, Functor.map, Except.map]
    | ok v =>
        cases hbp : initSpline bpRows with
        | error e => simp [edr3Init, hg, hbp, isErr, Bind.bind, Except.bind, Functor.map, Except.map]
        | ok w => simp [edr3Init, hg, hbp, initSpline_few_points_err _ h, isErr, Bind.bind, Except.bind, Functor.map, Except.map]

/-- Witness for C4: a table whose BP column has only 3 valid rows. -/
theorem c4_witness :
    (dropna [((some 4 : Option ℚ), (some 1 : Option ℚ)), (some 5, none),
             (some 6, some 1), (some 7, some 1)]).length < 4 ∧
    isErr (edr3Init [] [((some 4 : Option ℚ), (some 1 : Option ℚ)), (some 5, none),
             (some 6, some 1), (some 7, some 1)] []) = true :=
  ⟨by decide,
   c4_too_few_points_fails _ _ _ (Or.inl (by decide))⟩

/-! ## C8 -/

/-- C8: `extract_med_nobs` returns, for each of the three bands, the median
of that band's observation-count column cast to an integer; on a sample
whose primary-band counts are `[10, 20, 30]` the returned primary reference
count is 20. -/
theorem c8_extract_median :
    (∀ (sample_obs : String → List ℚ) (nobsArg : Option (List String)),
      extract_med_nobs sample_obs nobsArg =
        [pyInt (npMedian (sample_obs ((nobsArg.getD defaultNobsCols).getD 0 ""))),
         pyInt (npMedian (sample_obs ((nobsArg.getD defaultNobsCols).getD 1 ""))),
         pyInt (npMedian (sample_obs ((nobsArg.getD defaultNobsCols).getD 2 "")))]) ∧
    (∀ sample_obs : String → List ℚ,
      sample_obs "phot_g_n_obs" = [10, 20, 30] →
      (extract_med_nobs sample_obs none).getD 0 0 = 20) := by
  constructor
  · intro sample_obs nobsArg
    rfl
  · intro sample_obs hg
    simp [extract_med_nobs, defaultNobsCols, hg]
    norm_num [npMedian, List.mergeSort, pyInt]

/-- Witness for C8 on the concrete column `[10, 20, 30]`. -/
theorem c8_witness :
    (fun s => if s = "phot_g_n_obs" then ([10, 20, 30] : List ℚ) else [7])
        "phot_g_n_obs" = [10, 20, 30] ∧
    (extract_med_nobs
        (fun s => if s = "phot_g_n_obs" then ([10, 20, 30] : List ℚ) else [7])
        none).getD 0 0 = 20 :=
  ⟨by norm_num,
   c8_extract_median.2
     (fun s => if s = "phot_g_n_obs" then ([10, 20, 30] : List ℚ) else [7])
     (by norm_num)⟩

/-! ## C10 -/

/-- C10: constructing `MagError` with neither `med_nobs` nor `sample_obs`
raises `ValueError`; a truthy `med_nobs` is used directly and `sample_obs`
is ignored; a falsy `med_nobs` (such as the empty list) falls back to
`sample_obs` or the error. -/
theorem c10_init_selection :
    (∀ nms, magErrorInit none none nms =
       .error "please enter med_nobs OR sample_obs") ∧
    (∀ nms, magErrorInit (some []) none nms =
       .error "please enter med_nobs OR sample_obs") ∧
    (∀ (l : List ℤ) sample_obs nms, l ≠ [] →
       magErrorInit (some l) sample_obs nms = .ok l) ∧
    (∀ sample_obs, magErrorInit (some []) (some sample_obs) none =
       .ok (extract_med_nobs sample_obs none)) ∧
    (∀ sample_obs nms, magErrorInit none (some sample_obs) (some nms) =
       .ok (extract_med_nobs sample_obs (some nms))) := by
  refine ⟨fun nms => rfl, fun nms => rfl, ?_, fun s => rfl, fun s nms => rfl⟩
  intro l sample_obs nms hl
  cases l with
  | nil => exact absurd rfl hl
  | cons a t => rfl

/-- Witness for C10 with the non-empty `med_nobs = [3, 4, 5]`. -/
theorem c10_witness :
    ([3, 4, 5] : List ℤ) ≠ [] ∧
    magErrorInit (some [3, 4, 5]) none none = .ok [3, 4, 5] :=
  ⟨by decide, c10_init_selection.2.2.1 [3, 4, 5] none none (by decide)⟩

/-! ## C6 -/

/-- The sentinel count 0 and an explicit count equal to the reference count
produce identical `__compute_nobs` output (same label, same values), for
any reference count. -/
theorem computeNobs_sentinel (env : NumEnv) (hlog1 : env.log10 1 = 0)
    (hsq : ∀ x : ℚ, 0 < x → 0 < env.sqrtq x) (ref : ℕ) (hr : 0 < ref)
    (curve : BandCurve) (xx : List ℚ) :
    computeNobs env curve ref xx [0] = computeNobs env curve ref xx [(ref : ℤ)] := by
  have hrq : (0 : ℚ) < (ref : ℚ) := by exact_mod_cast hr
  rw [computeNobs_single_zero,
      computeNobs_single_pos _ _ _ _ _ (by exact_mod_cast hr)]
  have hcast : (((ref : ℤ)) : ℚ) = ((ref : ℕ) : ℚ) := by push_cast; ring
  have hval : xx.map (fun m =>
      fsub (curve.eval m)
        (flog10 env (fdiv (fsqrt env (.fin ((ref : ℤ) : ℚ)))
                          (fsqrt env (.fin ((ref : ℕ) : ℚ)))))) =
      xx.map curve.eval := by
    have hz : flog10 env (fdiv (fsqrt env (.fin ((ref : ℤ) : ℚ)))
        (fsqrt env (.fin ((ref : ℕ) : ℚ)))) = .fin 0 := by
      rw [hcast]
      exact rescale_at_ref env hlog1 hsq _ hrq
    rw [hz]
    exact List.map_congr_left (fun a _ => fsub_fin_zero _)
  rw [hval]
  rfl

/-- C6: for every band and every magnitude grid, `estimate` with the
sentinel observation count 0 produces the same labelled log-uncertainty
column as with an explicit count equal to that band's reference count
(200 for G, 20 for BP and RP): the rescaling term
`log10(sqrt(ref)/sqrt(ref))` is zero. -/
theorem c6_sentinel_equals_reference (env : NumEnv) (hlog1 : env.log10 1 = 0)
    (hsq : ∀ x : ℚ, 0 < x → 0 < env.sqrtq x) (b : Band) (curve : BandCurve)
    (xx : List ℚ) :
    computeNobs env curve (nobsRef b) xx [0] =
      computeNobs env curve (nobsRef b) xx [(nobsRef b : ℤ)] :=
  computeNobs_sentinel env hlog1 hsq (nobsRef b) (by cases b <;> decide) curve xx

/-- Witness for C6 on the G band with grid `[5]`. -/
theorem c6_witness :
    envW.log10 1 = 0 ∧
    computeNobs envW curveW (nobsRef Band.g) [5] [0] =
      computeNobs envW curveW (nobsRef Band.g) [5] [(nobsRef Band.g : ℤ)] :=
  ⟨by norm_num [envW],
   c6_sentinel_equals_reference envW (by norm_num [envW]) (fun x hx => hx)
     Band.g curveW [5]⟩

/-! ## C7 -/

/-- C7: for fixed curve value and reference count, the rescaled
log-uncertainty `curve(mag) - log10(sqrt(n)/sqrt(ref))` is strictly
decreasing in the observation count: for `1 <= n1 < n2` the value at `n2`
is strictly less than at `n1`. -/
theorem c7_rescaling_strict_decreasing (env : NumEnv)
    (hlog : ∀ x y : ℚ, 0 < x → x < y → env.log10 x < env.log10 y)
    (hsqm : ∀ x y : ℚ, 0 ≤ x → x < y → env.sqrtq x < env.sqrtq y)
    (hsqp : ∀ x : ℚ, 0 < x → 0 < env.sqrtq x)
    (c ref : ℚ) (href : 0 < ref) (n1 n2 : ℕ) (h1 : 1 ≤ n1) (h12 : n1 < n2) :
    logU_rescaled env c ref n2 < logU_rescaled env c ref n1 := by
  unfold logU_rescaled
  have hn1 : (0 : ℚ) < (n1 : ℚ) := by exact_mod_cast Nat.pos_of_ne_zero (by omega)
  have hlt : (n1 : ℚ) < (n2 : ℚ) := by exact_mod_cast h12
  have hs1 : 0 < env.sqrtq n1 := hsqp _ hn1
  have hsr : 0 < env.sqrtq ref := hsqp _ href
  have hmono : env.sqrtq n1 < env.sqrtq n2 := hsqm _ _ (le_of_lt hn1) hlt
  have hdivlt : env.sqrtq n1 / env.sqrtq ref < env.sqrtq n2 / env.sqrtq ref :=
    (div_lt_div_iff_of_pos_right hsr).mpr hmono
  have hdpos : 0 < env.sqrtq n1 / env.sqrtq ref := div_pos hs1 hsr
  exact sub_lt_sub_left (hlog _ _ hdpos hdivlt) c

/-- Witness for C7 at `c = 0`, `ref = 200`, `n1 = 1`, `n2 = 2`. -/
theorem c7_witness :
    (0 : ℚ) < 200 ∧ 1 ≤ 1 ∧ 1 < 2 ∧
    logU_rescaled envW 0 200 2 < logU_rescaled envW 0 200 1 :=
  ⟨by norm_num, le_refl 1, by norm_num,
   c7_rescaling_strict_decreasing envW
     (fun x y _ hxy => by simpa [envW] using sub_lt_sub_right hxy 1)
     (fun x y _ hxy => hxy) (fun x hx => hx)
     0 200 (by norm_num) 1 2 (le_refl 1) (by norm_num)⟩

/-! ## C5 -/

/-- `__compute_nobs` raises when any requested count is negative. -/
theorem computeNobs_neg_err (env : NumEnv) (curve : BandCurve) (ref : ℕ)
    (xx : List ℚ) (nobs : List ℤ) (h : ∃ n ∈ nobs, n < 0) :
    isErr (computeNobs env curve ref xx nobs) = true := by
  induction nobs with
  | nil => obtain ⟨n, hn, _⟩ := h; cases hn
  | cons a t ih =>
      obtain ⟨n, hn, hneg⟩ := h
      rcases List.mem_cons.mp hn with rfl | hmem
      · simp [computeNobs, hneg, isErr]
      · by_cases ha : a < 0
        · simp [computeNobs, ha, isErr]
        · have hrec := ih ⟨n, hmem, hneg⟩
          unfold computeNobs
          rw [if_neg ha]
          cases hc : computeNobs env curve ref xx t with
          | error e => simp [hc, isErr]
          | ok cols => rw [hc] at hrec; simp [isErr] at hrec

/-- `estimate` fails whenever the magnitude-range validation fails,
regardless of the band argument. -/
theorem estimate_err_of_range (env : NumEnv) (splines : Band → BandCurve)
    (band : String) (nobs : List ℤ) (r : Option (ℚ × ℚ)) (k : ℕ)
    (h : isErr (checkMagRange r) = true) :
    isErr (estimate env splines band nobs r k) = true := by
  unfold estimate
  cases hb : bandOfString band with
  | none => simp [isErr]
  | some b =>
      cases hr : checkMagRange r with
      | error e => simp [isErr]
      | ok p => rw [hr] at h; simp [isErr] at h

/-- C5: `estimate` fails with `ValueError` when the band name is not one of
the three known bands after lowercasing, when any requested observation
count is negative, when a supplied magnitude range starts below 4 or ends
above 21, or when the range is inverted; in particular for ranges
`(3, 10)`, `(10, 22)`, `(10, 5)` and for band `"xx"`. -/
theorem c5_invalid_arguments (env : NumEnv) (splines : Band → BandCurve) :
    (∀ band nobs r k, bandOfString band = none →
       isErr (estimate env splines band nobs r k) = true) ∧
    (∀ nobs r k, isErr (estimate env splines "xx" nobs r k) = true) ∧
    (∀ band nobs k lo hi, lo < 4 →
       isErr (estimate env splines band nobs (some (lo, hi)) k) = true) ∧
    (∀ band nobs k lo hi, 21 < hi →
       isErr (estimate env splines band nobs (some (lo, hi)) k) = true) ∧
    (∀ band nobs k lo hi, hi < lo →
       isErr (estimate env splines band nobs (some (lo, hi)) k) = true) ∧
    (∀ band nobs k, isErr (estimate env splines band nobs (some (3, 10)) k) = true) ∧
    (∀ band nobs k, isErr (estimate env splines band nobs (some (10, 22)) k) = true) ∧
    (∀ band nobs k, isErr (estimate env splines band nobs (some (10, 5)) k) = true) ∧
    (∀ band nobs r k, (∃ n ∈ nobs, n < 0) →
       isErr (estimate env splines band nobs r k) = true) := by
  have hband : ∀ band nobs r k, bandOfString band = none →
      isErr (estimate env splines band nobs r k) = true := by
    intro band nobs r k hb
    unfold estimate
    rw [hb]
    rfl
  have hrange : ∀ lo hi : ℚ, lo < 4 ∨ 21 < hi ∨ hi < lo →
      isErr (checkMagRange (some (lo, hi))) = true := by
    intro lo hi h
    by_cases h1 : lo < 4
    · simp [checkMagRange, h1, isErr]
    · by_cases h2 : 21 < hi
      · simp [checkMagRange, h1, h2, isErr]
      · have h3 : hi < lo := by
          rcases h with h | h | h
          · exact absurd h h1
          · exact absurd h h2
          · exact h
        simp [checkMagRange, h1, h2, h3, isErr]
  refine ⟨hband, fun nobs r k => hband _ _ _ _ (by decide), ?_, ?_, ?_, ?_, ?_, ?_, ?_⟩
  · intro band nobs k lo hi h
    exact estimate_err_of_range _ _ _ _ _ _ (hrange lo hi (Or.inl h))
  · intro band nobs k lo hi h
    exact estimate_err_of_range _ _ _ _ _ _ (hrange lo hi (Or.inr (Or.inl h)))
  · intro band nobs k lo hi h
    exact estimate_err_of_range _ _ _ _ _ _ (hrange lo hi (Or.inr (Or.inr h)))
  · intro band nobs k
    exact estimate_err_of_range _ _ _ _ _ _ (hrange 3 10 (Or.inl (by norm_num)))
  · intro band nobs k
    exact estimate_err_of_range _ _ _ _ _ _ (hrange 10 22 (Or.inr (Or.inl (by norm_num))))
  · intro band nobs k
    exact estimate_err_of_range _ _ _ _ _ _ (hrange 10 5 (Or.inr (Or.inr (by norm_num))))
  · intro band nobs r k h
    unfold estimate
    cases hb : bandOfString band with
    | none => simp [isErr]
    | some b =>
        cases hr : checkMagRange r with
        | error e => simp [isErr]
        | ok p =>
            obtain ⟨lo, hi⟩ := p
            have hc := computeNobs_neg_err env (splines b) (nobsRef b)
              (linspace lo hi k) nobs h
            cases hcn : computeNobs env (splines b) (nobsRef b) (linspace lo hi k) nobs with
            | error e => simp [hcn, isErr]
            | ok cols => rw [hcn] at hc; simp [isErr] at hc

/-- Witness for C5 at each of the four concrete failing inputs and a
negative count. -/
theorem c5_witness :
    isErr (estimate envW (fun _ => curveW) "xx" [0] none 5) = true ∧
    isErr (estimate envW (fun _ => curveW) "g" [0] (some (3, 10)) 5) = true ∧
    isErr (estimate envW (fun _ => curveW) "g" [0] (some (10, 22)) 5) = true ∧
    isErr (estimate envW (fun _ => curveW) "g" [0] (some (10, 5)) 5) = true ∧
    ((-1 : ℤ) ∈ [(-1 : ℤ)] ∧ (-1 : ℤ) < 0) ∧
    isErr (estimate envW (fun _ => curveW) "g" [-1] none 5) = true :=
  ⟨(c5_invalid_arguments envW (fun _ => curveW)).2.1 [0] none 5,
   (c5_invalid_arguments envW (fun _ => curveW)).2.2.2.2.2.1 "g" [0] 5,
   (c5_invalid_arguments envW (fun _ => curveW)).2.2.2.2.2.2.1 "g" [0] 5,
   (c5_invalid_arguments envW (fun _ => curveW)).2.2.2.2.2.2.2.1 "g" [0] 5,
   ⟨List.mem_singleton.mpr rfl, by norm_num⟩,
   (c5_invalid_arguments envW (fun _ => curveW)).2.2.2.2.2.2.2.2 "g" [-1] none 5
     ⟨-1, List.mem_singleton.mpr rfl, by norm_num⟩⟩

/-! ## Per-star error computation: scalar lemmas -/

/-- For an in-domain magnitude, the spline evaluation is finite. -/
theorem eval_in_domain (curve : BandCurve) (m : ℚ)
    (hdom : ¬ (m < curve.lo ∨ curve.hi < m)) :
    curve.eval m = .fin (curve.f m) := by
  unfold BandCurve.eval
  rw [if_neg hdom]

/-- A drawn observation count of 0 sends the per-star error computation to
`+inf`: `sqrt(0)/sqrt(ref) = 0`, `log10 0 = -inf`, `spline - (-inf) = +inf`,
`10 ** inf = inf`, and the division, square, floor addition and final
square root all preserve `+inf`.  No step raises. -/
theorem medErrStar_zero_pinf (env : NumEnv) (hs0 : env.sqrtq 0 = 0)
    (hsqp : ∀ x : ℚ, 0 < x → 0 < env.sqrtq x)
    (curve : BandCurve) (ref fl m : ℚ) (href : 0 < ref)
    (hdom : ¬ (m < curve.lo ∨ curve.hi < m)) :
    medErrStar env curve ref fl m 0 = FV.pinf := by
  have hsr : 0 < env.sqrtq ref := hsqp _ href
  have hc1 : ¬ (c067 < 0) := by norm_num [c067]
  unfold medErrStar
  rw [Nat.cast_zero, eval_in_domain curve m hdom]
  have h1 : fsqrt env (.fin 0) = .fin 0 := by simp [fsqrt, hs0]
  have h2 : fsqrt env (.fin ref) = .fin (env.sqrtq ref) := by
    simp [fsqrt, le_of_lt href]
  have h3 : fdiv (.fin 0) (.fin (env.sqrtq ref)) = .fin 0 := by
    simp [fdiv, ne_of_gt hsr]
  have h4 : flog10 env (.fin 0) = FV.ninf := by simp [flog10]
  rw [h1, h2, h3, h4]
  simp [fsub, fneg, fadd, fpow10, fdiv, fpow2, fsqrt, hc1]

/-- For an in-domain magnitude and a drawn observation count of at least 1,
the per-star error computation stays finite throughout and equals the spec
formula `sqrt((10^(curve(m) - log10(sqrt n / sqrt ref)) / 0.67)^2 +
floor^2)`. -/
theorem medErrStar_fin (env : NumEnv)
    (hsqp : ∀ x : ℚ, 0 < x → 0 < env.sqrtq x)
    (curve : BandCurve) (ref fl m : ℚ) (href : 0 < ref)
    (hdom : ¬ (m < curve.lo ∨ curve.hi < m)) (n : ℕ) (hn : 1 ≤ n) :
    medErrStar env curve ref fl m n =
      .fin (specUncertainty env (curve.f m) ref fl n) := by
  have hnq : (0 : ℚ) < (n : ℚ) := by exact_mod_cast Nat.pos_of_ne_zero (by omega)
  have hsr : 0 < env.sqrtq ref := hsqp _ href
  have hq : 0 < env.sqrtq n / env.sqrtq ref := div_pos (hsqp _ hnq) hsr
  have hc2 : ¬ (c067 = 0) := by norm_num [c067]
  unfold medErrStar
  rw [eval_in_domain curve m hdom]
  have h1 : fsqrt env (.fin (n : ℚ)) = .fin (env.sqrtq n) := by
    simp [fsqrt, le_of_lt hnq]
  have h2 : fsqrt env (.fin ref) = .fin (env.sqrtq ref) := by
    simp [fsqrt, le_of_lt href]
  have h3 : fdiv (.fin (env.sqrtq n)) (.fin (env.sqrtq ref)) =
      .fin (env.sqrtq n / env.sqrtq ref) := by
    simp [fdiv, ne_of_gt hsr]
  have h4 : flog10 env (.fin (env.sqrtq n / env.sqrtq ref)) =
      .fin (env.log10 (env.sqrtq n / env.sqrtq ref)) := by
    simp [flog10, hq]
  rw [h1, h2, h3, h4]
  have h5 : fsub (.fin (curve.f m))
      (.fin (env.log10 (env.sqrtq n / env.sqrtq ref))) =
      .fin (curve.f m - env.log10 (env.sqrtq n / env.sqrtq ref)) := by
    simp [fsub, fneg, fadd, sub_eq_add_neg]
  rw [h5]
  set e : ℚ := curve.f m - env.log10 (env.sqrtq n / env.sqrtq ref) with he
  have h6 : fdiv (.fin (env.pow10 e)) (.fin c067) =
      .fin (env.pow10 e / c067) := by
    simp [fdiv, hc2]
  have h7 : fpow10 env (.fin e) = .fin (env.pow10 e) := rfl
  rw [h7, h6]
  have h8 : fpow2 (.fin (env.pow10 e / c067)) =
      .fin ((env.pow10 e / c067) * (env.pow10 e / c067)) := rfl
  rw [h8]
  have h9 : fadd (.fin ((env.pow10 e / c067) * (env.pow10 e / c067)))
      (.fin (fl ^ 2)) =
      .fin ((env.pow10 e / c067) * (env.pow10 e / c067) + fl ^ 2) := rfl
  rw [h9]
  have hnonneg : 0 ≤ (env.pow10 e / c067) * (env.pow10 e / c067) + fl ^ 2 :=
    add_nonneg (mul_self_nonneg _) (sq_nonneg fl)
  have h10 : fsqrt env
      (.fin ((env.pow10 e / c067) * (env.pow10 e / c067) + fl ^ 2)) =
      .fin (env.sqrtq ((env.pow10 e / c067) * (env.pow10 e / c067) + fl ^ 2)) := by
    simp [fsqrt, hnonneg]
  rw [h10]
  unfold specUncertainty
  rw [← he]
  congr 2
  ring

/-! ## C1 -/

/-- C1 (behaviour actually exhibited by the code): with a drawn observation
count of 0 and an in-domain magnitude, `estimate_med_photoerr`'s per-star
computation silently returns `+inf` — no exception is raised, because the
numpy array operations emit only warnings and the `except ZeroDivisionError`
handler is unreachable — while every count of at least 1 yields a finite
value. -/
theorem c1_zero_count_silently_nonfinite (env : NumEnv)
    (hs0 : env.sqrtq 0 = 0) (hsqp : ∀ x : ℚ, 0 < x → 0 < env.sqrtq x)
    (curve : BandCurve) (ref fl m : ℚ) (href : 0 < ref)
    (hdom : curve.lo ≤ m ∧ m ≤ curve.hi) :
    medErrStar env curve ref fl m 0 = FV.pinf ∧
    (medErrStar env curve ref fl m 0).isFinite = false ∧
    ∀ n : ℕ, 1 ≤ n → (medErrStar env curve ref fl m n).isFinite = true := by
  have hdom' : ¬ (m < curve.lo ∨ curve.hi < m) := by
    simp only [not_or, not_lt]
    exact hdom
  have hz := medErrStar_zero_pinf env hs0 hsqp curve ref fl m href hdom'
  refine ⟨hz, by rw [hz]; rfl, ?_⟩
  intro n hn
  rw [medErrStar_fin env hsqp curve ref fl m href hdom' n hn]
  rfl

/-- Witness for C1: G band, in-domain magnitude 10, drawn count 0 (and 5
for the finite part). -/
theorem c1_witness :
    (curveW.lo ≤ 10 ∧ (10 : ℚ) ≤ curveW.hi) ∧
    medErrStar envW curveW 200 floorG 10 0 = FV.pinf ∧
    (medErrStar envW curveW 200 floorG 10 0).isFinite = false ∧
    (1 ≤ 5 ∧ (medErrStar envW curveW 200 floorG 10 5).isFinite = true) := by
  have hdom : curveW.lo ≤ (10 : ℚ) ∧ (10 : ℚ) ≤ curveW.hi := by
    norm_num [curveW]
  have h := c1_zero_count_silently_nonfinite envW (by norm_num [envW])
    (fun x hx => hx) curveW 200 floorG 10 (by norm_num) hdom
  exact ⟨hdom, h.1, h.2.1, by norm_num, h.2.2 5 (by norm_num)⟩

/-! ## List indexing helpers -/

/-- `getD` of a `zipWith` at an in-bounds index. -/
theorem zipWith_getD {α β γ : Type} (f : α → β → γ) (as : List α) (bs : List β)
    (i : ℕ) (da : α) (db : β) (dc : γ) (ha : i < as.length) (hb : i < bs.length) :
    (List.zipWith f as bs).getD i dc = f (as.getD i da) (bs.getD i db) := by
  induction as generalizing bs i with
  | nil => simp at ha
  | cons a as ih =>
      cases bs with
      | nil => simp at hb
      | cons b bs =>
          cases i with
          | zero => rfl
          | succ j =>
              simp only [List.zipWith_cons_cons, List.getD_cons_succ]
              exact ih bs j (by simpa using ha) (by simpa using hb)

/-- Length of `zipWith3`. -/
theorem zipWith3_length {α β γ δ : Type} (f : α → β → γ → δ)
    (as : List α) (bs : List β) (cs : List γ) :
    (zipWith3 f as bs cs).length = min as.length (min bs.length cs.length) := by
  induction as generalizing bs cs with
  | nil => simp [zipWith3]
  | cons a as ih =>
      cases bs with
      | nil => simp [zipWith3]
      | cons b bs =>
          cases cs with
          | nil => simp [zipWith3]
          | cons c cs =>
              simp only [zipWith3, List.length_cons, ih]
              omega

/-- `getD` of a `zipWith3` at an in-bounds index. -/
theorem zipWith3_getD {α β γ δ : Type} (f : α → β → γ → δ)
    (as : List α) (bs : List β) (cs : List γ) (i : ℕ)
    (da : α) (db : β) (dc : γ) (dd : δ)
    (ha : i < as.length) (hb : i < bs.length) (hc : i < cs.length) :
    (zipWith3 f as bs cs).getD i dd =
      f (as.getD i da) (bs.getD i db) (cs.getD i dc) := by
  induction as generalizing bs cs i with
  | nil => simp at ha
  | cons a as ih =>
      cases bs with
      | nil => simp at hb
      | cons b bs =>
          cases cs with
          | nil => simp at hc
          | cons c cs =>
              cases i with
              | zero => rfl
              | succ j =>
                  simp only [zipWith3, List.getD_cons_succ]
                  exact ih bs cs j (by simpa using ha) (by simpa using hb)
                    (by simpa using hc)

/-- Membership of an in-bounds `getD`. -/
theorem getD_mem_of_lt {α : Type} (l : List α) (i : ℕ) (d : α)
    (h : i < l.length) : l.getD i d ∈ l := by
  rw [List.getD_eq_getElem l d h]
  exact List.getElem_mem h

/-! ## C2 -/

/-- C2: for every star with in-domain true magnitudes and drawn counts of
at least 1, `estimate_med_photoerr` returns, per band, exactly
`sqrt((10^(curve(m) - log10(sqrt n / sqrt ref)) / 0.67)^2 + floor^2)` with
reference counts 200 / 20 / 20 and floors `floorG` / `floorBP` / `floorRP`,
and the three returned sequences have the same length and star ordering as
the input. -/
theorem c2_uncertainty_formula (env : NumEnv)
    (hsqp : ∀ x : ℚ, 0 < x → 0 < env.sqrtq x)
    (cg cbp crp : BandCurve) (sample : List SynStar) (gN bpN rpN : List ℕ)
    (hlg : gN.length = sample.length) (hlbp : bpN.length = sample.length)
    (hlrp : rpN.length = sample.length)
    (hdomg : ∀ s ∈ sample, cg.lo ≤ s.g ∧ s.g ≤ cg.hi)
    (hdombp : ∀ s ∈ sample, cbp.lo ≤ s.bp ∧ s.bp ≤ cbp.hi)
    (hdomrp : ∀ s ∈ sample, crp.lo ≤ s.rp ∧ s.rp ≤ crp.hi)
    (hng : ∀ n ∈ gN, 1 ≤ n) (hnbp : ∀ n ∈ bpN, 1 ≤ n)
    (hnrp : ∀ n ∈ rpN, 1 ≤ n) :
    (estimate_med_photoerr env cg cbp crp sample gN bpN rpN).1.length =
      sample.length ∧
    (estimate_med_photoerr env cg cbp crp sample gN bpN rpN).2.1.length =
      sample.length ∧
    (estimate_med_photoerr env cg cbp crp sample gN bpN rpN).2.2.length =
      sample.length ∧
    ∀ i, i < sample.length →
      (estimate_med_photoerr env cg cbp crp sample gN bpN rpN).1.getD i FV.nan =
        .fin (specUncertainty env (cg.f ((sample.getD i ⟨0, 0, 0⟩).g)) 200 floorG
          (gN.getD i 0)) ∧
      (estimate_med_photoerr env cg cbp crp sample gN bpN rpN).2.1.getD i FV.nan =
        .fin (specUncertainty env (cbp.f ((sample.getD i ⟨0, 0, 0⟩).bp)) 20 floorBP
          (bpN.getD i 0)) ∧
      (estimate_med_photoerr env cg cbp crp sample gN bpN rpN).2.2.getD i FV.nan =
        .fin (specUncertainty env (crp.f ((sample.getD i ⟨0, 0, 0⟩).rp)) 20 floorRP
          (rpN.getD i 0)) := by
  refine ⟨?_, ?_, ?_, ?_⟩
  · simp [estimate_med_photoerr, List.length_zipWith, hlg]
  · simp [estimate_med_photoerr, List.length_zipWith, hlbp]
  · simp [estimate_med_photoerr, List.length_zipWith, hlrp]
  · intro i hi
    have hig : i < gN.length := by omega
    have hibp : i < bpN.length := by omega
    have hirp : i < rpN.length := by omega
    have hsmem : sample.getD i ⟨0, 0, 0⟩ ∈ sample := getD_mem_of_lt _ _ _ hi
    refine ⟨?_, ?_, ?_⟩
    · rw [show (estimate_med_photoerr env cg cbp crp sample gN bpN rpN).1 =
          List.zipWith (fun s n => medErrStar env cg 200 floorG s.g n) sample gN
          from rfl,
        zipWith_getD _ sample gN i ⟨0, 0, 0⟩ 0 FV.nan hi hig]
      exact medErrStar_fin env hsqp cg 200 floorG _ (by norm_num)
        (by simp only [not_or, not_lt]; exact hdomg _ hsmem) _
        (hng _ (getD_mem_of_lt _ _ _ hig))
    · rw [show (estimate_med_photoerr env cg cbp crp sample gN bpN rpN).2.1 =
          List.zipWith (fun s n => medErrStar env cbp 20 floorBP s.bp n) sample bpN
          from rfl,
        zipWith_getD _ sample bpN i ⟨0, 0, 0⟩ 0 FV.nan hi hibp]
      exact medErrStar_fin env hsqp cbp 20 floorBP _ (by norm_num)
        (by simp only [not_or, not_lt]; exact hdombp _ hsmem) _
        (hnbp _ (getD_mem_of_lt _ _ _ hibp))
    · rw [show (estimate_med_photoerr env cg cbp crp sample gN bpN rpN).2.2 =
          List.zipWith (fun s n => medErrStar env crp 20 floorRP s.rp n) sample rpN
          from rfl,
        zipWith_getD _ sample rpN i ⟨0, 0, 0⟩ 0 FV.nan hi hirp]
      exact medErrStar_fin env hsqp crp 20 floorRP _ (by norm_num)
        (by simp only [not_or, not_lt]; exact hdomrp _ hsmem) _
        (hnrp _ (getD_mem_of_lt _ _ _ hirp))

/-- Witness for C2 on a single star with magnitudes (10, 11, 12) and drawn
counts (5, 6, 7). -/
theorem c2_witness :
    ((0 : ℕ) < 1) ∧
    (estimate_med_photoerr envW curveW curveW curveW
        [⟨10, 11, 12⟩] [5] [6] [7]).1.getD 0 FV.nan =
      .fin (specUncertainty envW (curveW.f 10) 200 floorG 5) ∧
    (estimate_med_photoerr envW curveW curveW curveW
        [⟨10, 11, 12⟩] [5] [6] [7]).2.1.getD 0 FV.nan =
      .fin (specUncertainty envW (curveW.f 11) 20 floorBP 6) ∧
    (estimate_med_photoerr envW curveW curveW curveW
        [⟨10, 11, 12⟩] [5] [6] [7]).2.2.getD 0 FV.nan =
      .fin (specUncertainty envW (curveW.f 12) 20 floorRP 7) :=
  ⟨by norm_num,
   (c2_uncertainty_formula envW (fun x hx => hx) curveW curveW curveW
      [⟨10, 11, 12⟩] [5] [6] [7] rfl rfl rfl
      (by norm_num [curveW]) (by norm_num [curveW]) (by norm_num [curveW])
      (by norm_num) (by norm_num) (by norm_num)).2.2.2 0 (by norm_num)⟩

/-! ## C3 -/

/-- C3: `syn_sample_photoerr` uses one standard-normal deviate per star,
reused by all three bands: for each star `i` the returned simulated
magnitude in each band is `uncertainty * deviate + trueMagnitude` with the
band's uncertainty from `estimate_med_photoerr` and the SAME deviate
`normal_sample.getD i 0` in all three bands (so the three per-star noise
offsets are perfectly correlated); the outputs keep the input length and
ordering. -/
theorem c3_shared_deviate (env : NumEnv) (cg cbp crp : BandCurve)
    (sample : List SynStar) (gN bpN rpN : List ℕ) (normal_sample : List ℚ)
    (hlg : gN.length = sample.length) (hlbp : bpN.length = sample.length)
    (hlrp : rpN.length = sample.length)
    (hnorm : normal_sample.length = sample.length) :
    (syn_sample_photoerr env cg cbp crp sample gN bpN rpN normal_sample).1.length =
      sample.length ∧
    (syn_sample_photoerr env cg cbp crp sample gN bpN rpN normal_sample).2.1.length =
      sample.length ∧
    (syn_sample_photoerr env cg cbp crp sample gN bpN rpN normal_sample).2.2.length =
      sample.length ∧
    ∀ i, i < sample.length →
      (syn_sample_photoerr env cg cbp crp sample gN bpN rpN normal_sample).1.getD
          i FV.nan =
        fadd (fmul ((estimate_med_photoerr env cg cbp crp sample gN bpN rpN).1.getD
            i FV.nan) (.fin (normal_sample.getD i 0)))
          (.fin ((sample.getD i ⟨0, 0, 0⟩).g)) ∧
      (syn_sample_photoerr env cg cbp crp sample gN bpN rpN normal_sample).2.1.getD
          i FV.nan =
        fadd (fmul ((estimate_med_photoerr env cg cbp crp sample gN bpN rpN).2.1.getD
            i FV.nan) (.fin (normal_sample.getD i 0)))
          (.fin ((sample.getD i ⟨0, 0, 0⟩).bp)) ∧
      (syn_sample_photoerr env cg cbp crp sample gN bpN rpN normal_sample).2.2.getD
          i FV.nan =
        fadd (fmul ((estimate_med_photoerr env cg cbp crp sample gN bpN rpN).2.2.getD
            i FV.nan) (.fin (normal_sample.getD i 0)))
          (.fin ((sample.getD i ⟨0, 0, 0⟩).rp)) := by
  have hel1 : (estimate_med_photoerr env cg cbp crp sample gN bpN rpN).1.length =
      sample.length := by
    simp [estimate_med_photoerr, List.length_zipWith, hlg]
  have hel2 : (estimate_med_photoerr env cg cbp crp sample gN bpN rpN).2.1.length =
      sample.length := by
    simp [estimate_med_photoerr, List.length_zipWith, hlbp]
  have hel3 : (estimate_med_photoerr env cg cbp crp sample gN bpN rpN).2.2.length =
      sample.length := by
    simp [estimate_med_photoerr, List.length_zipWith, hlrp]
  have hsyn1 : (syn_sample_photoerr env cg cbp crp sample gN bpN rpN normal_sample).1 =
      zipWith3 (fun err d s => fadd (fmul err (.fin d)) (.fin s.g))
        (estimate_med_photoerr env cg cbp crp sample gN bpN rpN).1
        normal_sample sample := rfl
  have hsyn2 : (syn_sample_photoerr env cg cbp crp sample gN bpN rpN normal_sample).2.1 =
      zipWith3 (fun err d s => fadd (fmul err (.fin d)) (.fin s.bp))
        (estimate_med_photoerr env cg cbp crp sample gN bpN rpN).2.1
        normal_sample sample := rfl
  have hsyn3 : (syn_sample_photoerr env cg cbp crp sample gN bpN rpN normal_sample).2.2 =
      zipWith3 (fun err d s => fadd (fmul err (.fin d)) (.fin s.rp))
        (estimate_med_photoerr env cg cbp crp sample gN bpN rpN).2.2
        normal_sample sample := rfl
  refine ⟨?_, ?_, ?_, ?_⟩
  · rw [hsyn1, zipWith3_length]
    omega
  · rw [hsyn2, zipWith3_length]
    omega
  · rw [hsyn3, zipWith3_length]
    omega
  · intro i hi
    refine ⟨?_, ?_, ?_⟩
    · rw [hsyn1, zipWith3_getD _ _ _ _ i FV.nan 0 ⟨0, 0, 0⟩ FV.nan
        (by omega) (by omega) hi]
    · rw [hsyn2, zipWith3_getD _ _ _ _ i FV.nan 0 ⟨0, 0, 0⟩ FV.nan
        (by omega) (by omega) hi]
    · rw [hsyn3, zipWith3_getD _ _ _ _ i FV.nan 0 ⟨0, 0, 0⟩ FV.nan
        (by omega) (by omega) hi]

/-- Witness for C3 on a single star with deviate 1. -/
theorem c3_witness :
    ((0 : ℕ) < 1) ∧
    (syn_sample_photoerr envW curveW curveW curveW
        [⟨10, 11, 12⟩] [5] [6] [7] [1]).1.getD 0 FV.nan =
      fadd (fmul ((estimate_med_photoerr envW curveW curveW curveW
          [⟨10, 11, 12⟩] [5] [6] [7]).1.getD 0 FV.nan) (.fin 1)) (.fin 10) ∧
    (syn_sample_photoerr envW curveW curveW curveW
        [⟨10, 11, 12⟩] [5] [6] [7] [1]).2.1.getD 0 FV.nan =
      fadd (fmul ((estimate_med_photoerr envW curveW curveW curveW
          [⟨10, 11, 12⟩] [5] [6] [7]).2.1.getD 0 FV.nan) (.fin 1)) (.fin 11) ∧
    (syn_sample_photoerr envW curveW curveW curveW
        [⟨10, 11, 12⟩] [5] [6] [7] [1]).2.2.getD 0 FV.nan =
      fadd (fmul ((estimate_med_photoerr envW curveW curveW curveW
          [⟨10, 11, 12⟩] [5] [6] [7]).2.2.getD 0 FV.nan) (.fin 1)) (.fin 12) :=
  ⟨by norm_num,
   (c3_shared_deviate envW curveW curveW curveW [⟨10, 11, 12⟩] [5] [6] [7] [1]
      rfl rfl rfl rfl).2.2.2 0 (by norm_num)⟩
